import Mathlib

/-!
Shallow embedding of the news-portal article logic of this repository:
the search filter (src/src/pages/Index.tsx), the article create and delete
handlers and the image upload flow (src/src/pages/Article.tsx admin
component and src/src/pages/AdminDashboard.tsx), and the published-only
store queries (src/src/pages/Index.tsx, src/src/pages/Article.tsx).

Text is modelled as a list of characters (JavaScript strings at the
code-unit level); the JavaScript string primitives the code uses
(toLowerCase, includes, startsWith, substring) are embedded below.
-/

namespace EnesNews

/-- Text: a JavaScript string as a list of characters. -/
abbrev Str := List Char

/-- JavaScript s.toLowerCase(), character by character. -/
def lowerStr (s : Str) : Str := s.map Char.toLower

/-- JavaScript s.startsWith(pat). -/
def strStartsWith (s pat : Str) : Bool :=
  match s, pat with
  | _, [] => true
  | [], _ :: _ => false
  | c :: cs, p :: ps => decide (c = p) && strStartsWith cs ps

/-- JavaScript s.includes(sub): sub occurs contiguously somewhere in s. -/
def strIncludes (s sub : Str) : Bool :=
  match s with
  | [] => sub.isEmpty
  | c :: t => strStartsWith (c :: t) sub || strIncludes t sub

/-- JavaScript s.substring(a, b): both indices are clamped to the length and
swapped if out of order; the code only ever calls it with a = 0. -/
def jsSubstring (s : Str) (a b : Nat) : Str :=
  (s.take (max a b)).drop (min a b)

/-- JavaScript s.substring(a) with one argument: the suffix from index a. -/
def jsSubstringFrom (s : Str) (a : Nat) : Str := s.drop a

/-- Article row as the listing view receives it (Index.tsx, interface Article). -/
structure Article where
  id : Str
  title : Str
  content : Str
  category : Str
  image : Str
  created_at : Str
  excerpt : Str
  deriving DecidableEq

/-- One article matches the live search term (Index.tsx lines 77-81): the
lowercased title, content or category includes the lowercased term. -/
def matchesSearch (a : Article) (searchTerm : Str) : Bool :=
  strIncludes (lowerStr a.title) (lowerStr searchTerm)
    || strIncludes (lowerStr a.content) (lowerStr searchTerm)
    || strIncludes (lowerStr a.category) (lowerStr searchTerm)

/-- The search filter effect (Index.tsx lines 76-83): Array.filter with
matchesSearch over the fetched article list. -/
def filterArticles (articles : List Article) (searchTerm : Str) : List Article :=
  articles.filter (fun a => matchesSearch a searchTerm)

/-- needle occurs as a contiguous substring of hay. -/
def substringOf (needle hay : Str) : Prop :=
  ∃ pre post, hay = pre ++ needle ++ post

/-- needle occurs in hay as a case-insensitive substring. -/
def ciContains (hay needle : Str) : Prop :=
  substringOf (lowerStr needle) (lowerStr hay)

/-- The draft fields the admin creation form submits. -/
structure Draft where
  title : Str
  content : Str
  category : Str
  image : Str
  deriving DecidableEq

/-- Authenticated actor (id and email) as supplied by the auth hook. -/
structure AuthUser where
  id : Str
  email : Str
  deriving DecidableEq

/-- Row handed to the store insert call (Article.tsx lines 576-589). -/
structure InsertRow where
  title : Str
  content : Str
  category : Str
  image : Str
  excerpt : Str
  author_id : Str
  published : Bool
  deriving DecidableEq

/-- Outcome of the create handler. -/
inductive CreateResult where
  | validationError
  | unauthorized
  | inserted (row : InsertRow)
  deriving DecidableEq

/-- Ellipsis appended to every derived excerpt. -/
def ellipsis : Str := "...".toList

/-- The create handler (Article.tsx handleAddArticle, lines 554-589; the
required-field check on lines 557-564 is JavaScript falsiness on the three
strings, i.e. plain emptiness with no trimming; the actor check on lines
566-573 follows it; the excerpt is content.substring(0, 150) + "..."). -/
def handleAddArticle (d : Draft) (user : Option AuthUser) : CreateResult :=
  if d.title.isEmpty || d.content.isEmpty || d.category.isEmpty then
    CreateResult.validationError
  else
    match user with
    | none => CreateResult.unauthorized
    | some u =>
        CreateResult.inserted
          { title := d.title
            content := d.content
            category := d.category
            image := d.image
            excerpt := jsSubstring d.content 0 150 ++ ellipsis
            author_id := u.id
            published := true }

/-- Store mutation calls, as a test double would record them. -/
inductive StoreCall where
  | insert (row : InsertRow)
  | delete (id : Str)
  deriving DecidableEq

/-- Store calls the create handler issues: the insert call happens exactly on
the success path of handleAddArticle. -/
def createStoreCalls (d : Draft) (user : Option AuthUser) : List StoreCall :=
  match handleAddArticle d user with
  | CreateResult.inserted row => [StoreCall.insert row]
  | _ => []

/-- Store calls the delete handler issues (Article.tsx handleDeleteArticle,
lines 626-658): the handler deletes by id directly and never consults the
actor, so the call list does not depend on the user argument. -/
def deleteStoreCalls (_user : Option AuthUser) (id : Str) : List StoreCall :=
  [StoreCall.delete id]

/-- Editor state: the in-progress article content and the textarea cursor. -/
structure EditorState where
  content : Str
  cursor : Nat
  deriving DecidableEq

/-- Errors the image upload flow can surface. -/
inductive UploadError where
  | invalidFile
  | uploadFailed
  deriving DecidableEq

/-- Result of the upload handler: the editor state afterwards, the surfaced
error if any, and whether the storage upload call was issued. -/
structure UploadOutcome where
  state : EditorState
  error : Option UploadError
  uploadCalled : Bool
  deriving DecidableEq

/-- Size cap from the check file.size > 5 * 1024 * 1024 (Article.tsx line 462). -/
def imageSizeLimit : Nat := 5 * 1024 * 1024

/-- The declared-type pattern of the validation check
file.type.startsWith(image/) (Article.tsx line 452). -/
def imageTypePat : Str := "image/".toList

/-- Markup spliced into the content for an uploaded image (Article.tsx line 508). -/
def imageMarkdown (imageUrl : Str) : Str :=
  "\n\n![Image](".toList ++ imageUrl ++ ")\n\n".toList

/-- Pure splice step (Article.tsx lines 502-520): content.substring(0, cursor),
the markup, content.substring(cursor), and the cursor moved just past the
inserted markup. -/
def spliceImage (content : Str) (cursorPosition : Nat) (imageUrl : Str) : Str × Nat :=
  let textBefore := jsSubstring content 0 cursorPosition
  let textAfter := jsSubstringFrom content cursorPosition
  let md := imageMarkdown imageUrl
  (textBefore ++ md ++ textAfter, cursorPosition + md.length)

/-- The upload handler (Article.tsx handleImageUpload, lines 447-539):
validate declared type and size, ensure the bucket, upload, then splice the
public URL into the content; a thrown ensure/upload failure is caught with
the editor state untouched. The two Booleans stand for the outcomes of the
two remote storage calls. -/
def handleImageUpload (fileType : Str) (fileSize : Nat) (bucketOk uploadOk : Bool)
    (publicUrl : Str) (st : EditorState) : UploadOutcome :=
  if !(strStartsWith fileType imageTypePat) then
    { state := st, error := some UploadError.invalidFile, uploadCalled := false }
  else if fileSize > imageSizeLimit then
    { state := st, error := some UploadError.invalidFile, uploadCalled := false }
  else if !bucketOk then
    { state := st, error := some UploadError.uploadFailed, uploadCalled := false }
  else if !uploadOk then
    { state := st, error := some UploadError.uploadFailed, uploadCalled := true }
  else
    let s := spliceImage st.content st.cursor publicUrl
    { state := { content := s.1, cursor := s.2 }, error := none, uploadCalled := true }

/-- Article row as stored, including the published flag the public views
filter on (the stored table behind the supabase queries). -/
structure DbRow where
  id : Str
  title : Str
  content : Str
  category : Str
  image : Str
  excerpt : Str
  created_at : Nat
  published : Bool
  deriving DecidableEq

/-- Insertion into a list kept sorted by created_at descending. -/
def insertDescByCreatedAt (r : DbRow) : List DbRow → List DbRow
  | [] => [r]
  | x :: xs =>
      if x.created_at ≤ r.created_at then r :: x :: xs
      else x :: insertDescByCreatedAt r xs

/-- Evaluation of the order clause order(created_at, descending). -/
def orderByCreatedAtDesc (rows : List DbRow) : List DbRow :=
  rows.foldr insertDescByCreatedAt []

/-- The public listing query (Index.tsx fetchArticles, lines 51-74):
select rows with eq(published, true), newest first. -/
def fetchArticlesQuery (store : List DbRow) : List DbRow :=
  orderByCreatedAtDesc (store.filter (fun r => r.published))

/-- The public fetch-by-id query (Article.tsx fetchArticle, lines 143-170):
eq(id), eq(published, true), then single(), which succeeds only when exactly
one row matches; any error is shown as Article Not Found. -/
def fetchArticleQuery (store : List DbRow) (id : Str) : Option DbRow :=
  match store.filter (fun r => decide (r.id = id) && r.published) with
  | [r] => some r
  | _ => none

theorem strStartsWith_iff (s pat : Str) :
    strStartsWith s pat = true ↔ ∃ t, s = pat ++ t := by
  induction s generalizing pat with
  | nil =>
      cases pat with
      | nil => simp [strStartsWith]
      | cons p ps => simp [strStartsWith]
  | cons c cs ih =>
      cases pat with
      | nil => simp [strStartsWith]
      | cons p ps =>
          simp only [strStartsWith, Bool.and_eq_true, decide_eq_true_eq, ih]
          constructor
          · rintro ⟨hcp, t, ht⟩
            exact ⟨t, by simp [hcp, ht]⟩
          · rintro ⟨t, ht⟩
            simp only [List.cons_append, List.cons.injEq] at ht
            exact ⟨ht.1, t, ht.2⟩

theorem substringOf_cons (sub : Str) (c : Char) (t : Str) :
    substringOf sub (c :: t) ↔ (∃ u, c :: t = sub ++ u) ∨ substringOf sub t := by
  constructor
  · rintro ⟨pre, post, h⟩
    cases pre with
    | nil => exact Or.inl ⟨post, by simpa using h⟩
    | cons p ps =>
        simp only [List.cons_append, List.cons.injEq] at h
        exact Or.inr ⟨ps, post, h.2⟩
  · rintro (⟨u, h⟩ | ⟨pre, post, h⟩)
    · exact ⟨[], u, by simpa using h⟩
    · exact ⟨c :: pre, post, by simp [h]⟩

theorem strIncludes_iff (s sub : Str) :
    strIncludes s sub = true ↔ substringOf sub s := by
  induction s with
  | nil =>
      constructor
      · intro h
        have hsub : sub = [] := by
          cases sub with
          | nil => rfl
          | cons a l => simp [strIncludes, List.isEmpty] at h
        exact ⟨[], [], by simp [hsub]⟩
      · rintro ⟨pre, post, h⟩
        have hsub : sub = [] := by
          have hlen := congrArg List.length h
          simp at hlen
          exact List.length_eq_zero.mp (by omega)
        simp [strIncludes, hsub, List.isEmpty]
  | cons c t ih =>
      simp only [strIncludes, Bool.or_eq_true, strStartsWith_iff, ih,
        substringOf_cons]

theorem strIncludes_nil (s : Str) : strIncludes s [] = true := by
  cases s with
  | nil => rfl
  | cons c t => rfl

theorem matchesSearch_iff (a : Article) (q : Str) :
    matchesSearch a q = true ↔
      ciContains a.title q ∨ ciContains a.content q ∨ ciContains a.category q := by
  simp only [matchesSearch, Bool.or_eq_true, strIncludes_iff, ciContains]
  tauto

theorem jsSubstring_zero (s : Str) (b : Nat) : jsSubstring s 0 b = s.take b := by
  simp [jsSubstring]

theorem isEmpty_false_of_ne {l : Str} (h : l ≠ []) : l.isEmpty = false := by
  cases l with
  | nil => exact absurd rfl h
  | cons a t => rfl

/-- Example draft used by concrete instances below. -/
def draftEx : Draft :=
  { title := "t".toList, content := "abc".toList, category := "c".toList,
    image := "/placeholder.svg".toList }

/-- Example authenticated actor used by concrete instances below. -/
def userEx : AuthUser := { id := "u1".toList, email := "a@b".toList }

/-- The row handleAddArticle inserts for draftEx and userEx. -/
def rowEx : InsertRow :=
  { title := "t".toList, content := "abc".toList, category := "c".toList,
    image := "/placeholder.svg".toList, excerpt := "abc...".toList,
    author_id := "u1".toList, published := true }

/-- Draft whose title is whitespace-only but not empty. -/
def spaceDraft : Draft :=
  { title := " ".toList, content := "x".toList, category := "y".toList,
    image := "/placeholder.svg".toList }

/-- C1: the search filter returns exactly the articles whose title, content
or category contains the query as a case-insensitive substring, and the
result is a subsequence of the input list (order preserved). -/
theorem search_filter_spec (L : List Article) (q : Str) :
    (filterArticles L q).Sublist L ∧
      ∀ a : Article, a ∈ filterArticles L q ↔
        a ∈ L ∧ (ciContains a.title q ∨ ciContains a.content q ∨ ciContains a.category q) := by
  refine ⟨List.filter_sublist L, fun a => ?_⟩
  rw [filterArticles, List.mem_filter, matchesSearch_iff]

/-- C9: filtering with the empty query string is the identity on the list. -/
theorem empty_query_identity (L : List Article) : filterArticles L [] = L := by
  apply List.filter_eq_self.mpr
  intro a _
  simp [matchesSearch, lowerStr, strIncludes_nil]

/-- C2: an inserted article's excerpt is content.substring(0, 150) + "...";
for content longer than 150 characters that is the first 150 characters plus
the ellipsis, and for content of at most 150 characters it is the whole
content plus the ellipsis. -/
theorem excerpt_spec (d : Draft) (u : AuthUser) (row : InsertRow)
    (h : handleAddArticle d (some u) = CreateResult.inserted row) :
    row.excerpt = jsSubstring d.content 0 150 ++ ellipsis ∧
      (150 < d.content.length → row.excerpt = d.content.take 150 ++ ellipsis) ∧
      (d.content.length ≤ 150 → row.excerpt = d.content ++ ellipsis) := by
  have hrow : row.excerpt = jsSubstring d.content 0 150 ++ ellipsis := by
    unfold handleAddArticle at h
    split at h
    · exact absurd h (by simp)
    · injection h with h2
      rw [← h2]
  refine ⟨hrow, fun _ => by rw [hrow, jsSubstring_zero], fun hle => ?_⟩
  rw [hrow, jsSubstring_zero, List.take_of_length_le hle]

/-- Witness for C2: the concrete three-character draft yields the whole
content followed by the ellipsis. -/
theorem excerpt_spec_witness : rowEx.excerpt = draftEx.content ++ ellipsis :=
  (excerpt_spec draftEx userEx rowEx (by decide)).2.2 (by decide)

/-- C3 counterexample: a whitespace-only title passes the falsiness check, so
the create succeeds and the store receives an insert call, contradicting the
claim that whitespace-only fields yield a ValidationError with no insert. -/
theorem whitespace_draft_inserted :
    handleAddArticle spaceDraft (some userEx) ≠ CreateResult.validationError ∧
      createStoreCalls spaceDraft (some userEx) ≠ [] := by
  decide

/-- C3 amended: when any of title, content or category is the empty string,
the create fails with ValidationError and issues no store call; the check
does not trim, so only exact emptiness is rejected. -/
theorem empty_field_validation (d : Draft) (u : Option AuthUser)
    (h : d.title = [] ∨ d.content = [] ∨ d.category = []) :
    handleAddArticle d u = CreateResult.validationError ∧ createStoreCalls d u = [] := by
  have hb : (d.title.isEmpty || d.content.isEmpty || d.category.isEmpty) = true := by
    rcases h with h | h | h <;> simp [h]
  constructor
  · simp [handleAddArticle, hb]
  · simp [createStoreCalls, handleAddArticle, hb]

/-- Witness for the amended C3: a draft with an empty title is rejected and
no store call is made. -/
theorem empty_field_validation_witness :
    handleAddArticle
        { title := [], content := "x".toList, category := "y".toList, image := [] } none =
      CreateResult.validationError ∧
      createStoreCalls
        { title := [], content := "x".toList, category := "y".toList, image := [] } none = [] :=
  empty_field_validation _ none (Or.inl rfl)

/-- C4 counterexample: the delete handler issues the store delete call even
with a null actor, and a create with a null actor and empty fields fails
with ValidationError rather than Unauthorized. -/
theorem delete_call_with_null_actor :
    deleteStoreCalls none ("a1".toList) = [StoreCall.delete ("a1".toList)] ∧
      deleteStoreCalls none ("a1".toList) ≠ [] ∧
      handleAddArticle { title := [], content := [], category := [], image := [] } none =
        CreateResult.validationError := by
  decide

/-- C4 amended: a create with a null actor issues no store call and, when the
empty-field validation passes, fails with Unauthorized; the delete handler
issues the store delete call regardless of the actor. -/
theorem authorize_spec_amended (d : Draft) (id : Str) :
    createStoreCalls d none = [] ∧
      (d.title ≠ [] → d.content ≠ [] → d.category ≠ [] →
        handleAddArticle d none = CreateResult.unauthorized) ∧
      deleteStoreCalls none id = [StoreCall.delete id] := by
  refine ⟨?_, ?_, rfl⟩
  · have hres : ∀ row, handleAddArticle d none ≠ CreateResult.inserted row := by
      intro row h
      unfold handleAddArticle at h
      split at h
      · exact absurd h (by simp)
      · exact absurd h (by simp)
    unfold createStoreCalls
    split
    · rename_i row heq
      exact absurd heq (hres row)
    · rfl
  · intro h1 h2 h3
    simp [handleAddArticle, isEmpty_false_of_ne h1, isEmpty_false_of_ne h2,
      isEmpty_false_of_ne h3]

/-- Witness for the amended C4: a valid draft with a null actor is
Unauthorized, and the delete call list with a null actor is the delete. -/
theorem authorize_spec_amended_witness :
    handleAddArticle draftEx none = CreateResult.unauthorized ∧
      deleteStoreCalls none ("a1".toList) = [StoreCall.delete ("a1".toList)] :=
  ⟨(authorize_spec_amended draftEx ("a1".toList)).2.1 (by decide) (by decide) (by decide),
    (authorize_spec_amended draftEx ("a1".toList)).2.2⟩

/-- Example editor state used by concrete instances below. -/
def stEx : EditorState := { content := "AB".toList, cursor := 1 }

/-- C5: the image splice yields content.take cursor, the markup, then the
rest of the content, with the new cursor just past the markup; in
particular content AB with cursor 1 and url http x y png yields the spliced
string of the claim. -/
theorem splice_spec :
    (∀ (content : Str) (cursor : Nat) (url : Str),
        (spliceImage content cursor url).1 =
          content.take cursor ++ imageMarkdown url ++ content.drop cursor ∧
        (spliceImage content cursor url).2 = cursor + (imageMarkdown url).length) ∧
      spliceImage ("AB".toList) 1 ("http://x/y.png".toList) =
        ("A\n\n![Image](http://x/y.png)\n\nB".toList,
          1 + (imageMarkdown ("http://x/y.png".toList)).length) := by
  constructor
  · intro content cursor url
    exact ⟨by simp [spliceImage, jsSubstring_zero, jsSubstringFrom], rfl⟩
  · decide

/-- C6: if the file passes validation but the ensure-bucket step or the
upload call fails, the handler surfaces UploadFailed and the editor state is
returned unchanged (no partial splice). -/
theorem upload_failure_leaves_state (fileType : Str) (fileSize : Nat)
    (bucketOk uploadOk : Bool) (url : Str) (st : EditorState)
    (htype : strStartsWith fileType imageTypePat = true)
    (hsize : fileSize ≤ imageSizeLimit)
    (hfail : bucketOk = false ∨ uploadOk = false) :
    (handleImageUpload fileType fileSize bucketOk uploadOk url st).state = st ∧
      (handleImageUpload fileType fileSize bucketOk uploadOk url st).error =
        some UploadError.uploadFailed := by
  have h2 : ¬ fileSize > imageSizeLimit := by omega
  rcases hfail with h | h
  · subst h
    simp [handleImageUpload, htype, h2]
  · subst h
    cases bucketOk <;> simp [handleImageUpload, htype, h2]

/-- Witness for C6: a small png with a failing bucket check leaves the
editor state untouched and surfaces UploadFailed. -/
theorem upload_failure_leaves_state_witness :
    (handleImageUpload ("image/png".toList) 1024 false true ("u".toList) stEx).state = stEx ∧
      (handleImageUpload ("image/png".toList) 1024 false true ("u".toList) stEx).error =
        some UploadError.uploadFailed :=
  upload_failure_leaves_state ("image/png".toList) 1024 false true ("u".toList) stEx
    (by decide) (by decide) (Or.inl rfl)

/-- C7: the handler fails with InvalidFile and issues no upload call exactly
when the declared type is not an image type or the size exceeds the
5242880-byte cap; a 6 MB png and a 1 KB plain-text file are rejected while a
1 KB png passes validation. -/
theorem file_validation_spec :
    imageSizeLimit = 5242880 ∧
      (∀ (fileType : Str) (fileSize : Nat) (bucketOk uploadOk : Bool)
          (url : Str) (st : EditorState),
        ((handleImageUpload fileType fileSize bucketOk uploadOk url st).error =
              some UploadError.invalidFile ∧
            (handleImageUpload fileType fileSize bucketOk uploadOk url st).uploadCalled =
              false) ↔
          (strStartsWith fileType imageTypePat = false ∨ imageSizeLimit < fileSize)) ∧
      (handleImageUpload ("image/png".toList) (6 * 1024 * 1024) true true
          ("u".toList) stEx).error = some UploadError.invalidFile ∧
      (handleImageUpload ("text/plain".toList) 1024 true true
          ("u".toList) stEx).error = some UploadError.invalidFile ∧
      (handleImageUpload ("image/png".toList) 1024 true true
          ("u".toList) stEx).error = none := by
  refine ⟨rfl, ?_, by decide, by decide, by decide⟩
  intro fileType fileSize bucketOk uploadOk url st
  cases hb : strStartsWith fileType imageTypePat with
  | false => simp [handleImageUpload, hb]
  | true =>
      by_cases hs : imageSizeLimit < fileSize
      · simp [handleImageUpload, hb, hs]
      · cases bucketOk <;> cases uploadOk <;> simp [handleImageUpload, hb, hs]

/-- C10: a file of exactly 5242880 bytes with an image content type passes
validation (the size check rejects only strictly larger files), so it
proceeds to the upload call when the bucket is available. -/
theorem boundary_size_passes (fileType : Str) (bucketOk uploadOk : Bool)
    (url : Str) (st : EditorState)
    (htype : strStartsWith fileType imageTypePat = true) :
    (handleImageUpload fileType 5242880 bucketOk uploadOk url st).error ≠
        some UploadError.invalidFile ∧
      (bucketOk = true →
        (handleImageUpload fileType 5242880 bucketOk uploadOk url st).uploadCalled = true) := by
  have hs : ¬ ((5242880 : Nat) > imageSizeLimit) := by decide
  cases bucketOk <;> cases uploadOk <;> simp [handleImageUpload, htype, hs]

/-- Witness for C10: a png of exactly 5242880 bytes is not rejected. -/
theorem boundary_size_passes_witness :
    (handleImageUpload ("image/png".toList) 5242880 true true ("u".toList) stEx).error ≠
      some UploadError.invalidFile :=
  (boundary_size_passes ("image/png".toList) true true ("u".toList) stEx (by decide)).1

theorem mem_insertDescByCreatedAt {a r : DbRow} {l : List DbRow} :
    a ∈ insertDescByCreatedAt r l ↔ a = r ∨ a ∈ l := by
  induction l with
  | nil => simp [insertDescByCreatedAt]
  | cons x xs ih =>
      simp only [insertDescByCreatedAt]
      split
      · simp
      · simp only [List.mem_cons, ih]
        tauto

theorem mem_orderByCreatedAtDesc {a : DbRow} {l : List DbRow} :
    a ∈ orderByCreatedAtDesc l ↔ a ∈ l := by
  induction l with
  | nil => simp [orderByCreatedAtDesc]
  | cons x xs ih =>
      simp only [orderByCreatedAtDesc, List.foldr] at ih ⊢
      rw [mem_insertDescByCreatedAt, ih, List.mem_cons]

/-- C8: the public listing query returns only rows with published true, and
the public fetch-by-id query returns a row only when it is published, so an
unpublished record is never publicly visible. -/
theorem published_only_visibility (store : List DbRow) :
    (∀ r ∈ fetchArticlesQuery store, r.published = true) ∧
      (∀ (id : Str) (r : DbRow), fetchArticleQuery store id = some r →
        r.published = true) := by
  constructor
  · intro r hr
    rw [fetchArticlesQuery, mem_orderByCreatedAtDesc] at hr
    exact (List.mem_filter.mp hr).2
  · intro id r h
    unfold fetchArticleQuery at h
    cases hfil : store.filter (fun row => decide (row.id = id) && row.published) with
    | nil =>
        rw [hfil] at h
        exact absurd h (by simp)
    | cons x xs =>
        rw [hfil] at h
        cases xs with
        | nil =>
            have hx : x ∈ store.filter (fun row => decide (row.id = id) && row.published) := by
              rw [hfil]
              exact List.mem_cons_self x []
            have hpub := (List.mem_filter.mp hx).2
            simp only [Bool.and_eq_true] at hpub
            have hxr : x = r := by
              simpa using h
            rw [← hxr]
            exact hpub.2
        | cons y ys =>
            exact absurd h (by simp)

/-- Published example row used by the concrete instance below. -/
def rowPubEx : DbRow :=
  { id := "p1".toList, title := "t".toList, content := "c".toList,
    category := "k".toList, image := "i".toList, excerpt := "e".toList,
    created_at := 2, published := true }

/-- Unpublished example row used by the concrete instance below. -/
def rowUnpubEx : DbRow :=
  { id := "q1".toList, title := "t2".toList, content := "c2".toList,
    category := "k".toList, image := "i".toList, excerpt := "e2".toList,
    created_at := 1, published := false }

/-- Mixed-visibility example store. -/
def storeEx : List DbRow := [rowUnpubEx, rowPubEx]

/-- Witness for C8: on the mixed store, the row the public fetch-by-id query
returns is published. -/
theorem published_only_visibility_witness : rowPubEx.published = true :=
  (published_only_visibility storeEx).2 ("p1".toList) rowPubEx (by decide)

end EnesNews
